import Mathlib

/-!
Shallow embedding of the text-processing subsystem of Cornac
(`cornac/data/text.py`): tokenizer, `Vocabulary`, `CountVectorizer`
and the parts of `TextModule` the claims refer to, together with
theorems settling the claims.

Python lists are modelled as Lean lists; Python `dict` comprehensions
(later keys override earlier ones) are modelled by `lastIdxOf` /
`lookupLast`; Python indexing (including negative wrap-around) by
`pyIndex`; raised exceptions by `Except.error`.  `max_doc_freq` may be
a Python `int` or `float`; the float arithmetic here is exact (ℚ),
which agrees with the source for all values exercised.
-/

namespace Cornac

/-- `PAD` reserved token, id 0. -/
def PAD : String := "<PAD>"

/-- `UNK` reserved token, id 1. -/
def UNK : String := "<UNK>"

/-- `BOS` reserved token, id 2. -/
def BOS : String := "<BOS>"

/-- `EOS` reserved token, id 3. -/
def EOS : String := "<EOS>"

/-- `SPECIAL_TOKENS = [PAD, UNK, BOS, EOS]` from `text.py`. -/
def SPECIAL_TOKENS : List String := [PAD, UNK, BOS, EOS]

/-- `Vocabulary._add_special_tokens`: for each reserved token, in reversed
order, remove its first occurrence from the list (a no-op when absent,
exactly like the guarded `list.remove`) and insert it at position 0. -/
def addSpecialTokens (idx2tok : List String) : List String :=
  SPECIAL_TOKENS.reverse.foldl (fun acc tok => tok :: acc.erase tok) idx2tok

/-- The `Vocabulary` class: its only stored data is `idx2tok`;
`tok2idx` is rebuilt from it deterministically. -/
structure Vocabulary where
  idx2tok : List String
deriving DecidableEq

/-- Index of the last occurrence of `t` in `l` (Python dict comprehension
`{tok: idx for idx, tok in enumerate(idx2tok)}`: later keys override). -/
def lastIdxOf : List String → String → Option Nat
  | [], _ => none
  | x :: xs, t =>
    match lastIdxOf xs t with
    | some k => some (k + 1)
    | none => if x = t then some 0 else none

/-- `Vocabulary.tok2idx` as a lookup function (absent tokens give `none`;
call sites supply the defaults the Python code uses). -/
def Vocabulary.tok2idx (v : Vocabulary) (t : String) : Option Nat :=
  lastIdxOf v.idx2tok t

/-- The `Vocabulary` constructor: normalizes the token list. -/
def Vocabulary.init (l : List String) : Vocabulary :=
  ⟨addSpecialTokens l⟩

/-- `Vocabulary.size` property. -/
def Vocabulary.size (v : Vocabulary) : Nat :=
  v.idx2tok.length

/-- `Vocabulary.to_idx`: unknown tokens map to 1 (`UNK`). -/
def Vocabulary.to_idx (v : Vocabulary) (tokens : List String) : List Nat :=
  tokens.map (fun t => (v.tok2idx t).getD 1)

/-- Python list index resolution: nonnegative indices must be `< n`,
negative indices wrap around from the end while `≥ -n`. -/
def pyIndex (n : Nat) (i : Int) : Option Nat :=
  if 0 ≤ i then
    if i < (n : Int) then some i.toNat else none
  else
    if 0 ≤ (n : Int) + i then some ((n : Int) + i).toNat else none

/-- The constant message of a Python `IndexError` on list indexing. -/
def indexErrorMsg : String := "IndexError: list index out of range"

/-- `l[i]` for a Python list of strings. -/
def pyGetStr (l : List String) (i : Int) : Except String String :=
  match pyIndex l.length i with
  | some j => .ok (l.getD j "")
  | none => .error indexErrorMsg

/-- Result of `Vocabulary.to_text`: a joined string when a separator is
given, the token list when `sep` is `None`. -/
inductive TextOut where
  | joined (s : String)
  | tokens (l : List String)
deriving DecidableEq

/-- `Vocabulary.to_text`: first maps every index through `idx2tok`
(the list comprehension), then joins if `sep` is non-null. -/
def Vocabulary.to_text (v : Vocabulary) (indices : List Int) (sep : Option String) :
    Except String TextOut := do
  let toks ← indices.mapM (fun i => pyGetStr v.idx2tok i)
  match sep with
  | some s => pure (.joined (String.intercalate s toks))
  | none => pure (.tokens toks)

/-- `collections.Counter` items: keys in first-occurrence order, each
with its multiplicity. -/
def counterItems (tokens : List String) : List (String × Nat) :=
  (tokens.foldl (fun acc t => if t ∈ acc then acc else acc ++ [t]) []).map
    (fun t => (t, tokens.count t))

/-- Stable insertion keeping counts descending: `p` goes after every
entry whose count is `≥ p.2`, as Python's stable `sorted` does. -/
def insertByCountDesc (p : String × Nat) : List (String × Nat) → List (String × Nat)
  | [] => [p]
  | q :: rest => if q.2 < p.2 then p :: q :: rest else q :: insertByCountDesc p rest

/-- `Counter.most_common()`: count-descending order, ties broken by
first-occurrence order (Python's sort is stable). -/
def mostCommon (items : List (String × Nat)) : List (String × Nat) :=
  items.foldl (fun acc p => insertByCountDesc p acc) []

/-- `Vocabulary.from_tokens`. -/
def Vocabulary.from_tokens (tokens : List String) (maxVocab : Option Nat)
    (minFreq : Nat) : Vocabulary :=
  let freqSorted := mostCommon (counterItems tokens)
  let limited := match maxVocab with
    | none => freqSorted
    | some n => freqSorted.take n
  Vocabulary.init (limited.filterMap (fun p => if minFreq ≤ p.2 then some p.1 else none))

/-- `Vocabulary.from_sequences`: flatten then delegate. -/
def Vocabulary.from_sequences (sequences : List (List String)) (maxVocab : Option Nat)
    (minFreq : Nat) : Vocabulary :=
  Vocabulary.from_tokens sequences.flatten maxVocab minFreq

/-! ## BaseTokenizer with `DEFAULT_PRE_RULES` -/

/-- Scan for the first `>` (continuation of a `<([^>]+)>` match). -/
def skipToGt : List Char → Option (List Char)
  | [] => none
  | c :: rest => if c = '>' then some rest else skipToGt rest

/-- After an opening `<`, the regex `<([^>]+)>` needs at least one
non-`>` character before the closing `>`. -/
def findTagEnd : List Char → Option (List Char)
  | [] => none
  | c :: rest => if c = '>' then none else skipToGt rest

/-- `rm_tags` worker; fuel bounds the recursion by the input length. -/
def rmTagsGo : Nat → List Char → List Char
  | 0, l => l
  | _ + 1, [] => []
  | fuel + 1, c :: rest =>
    if c = '<' then
      match findTagEnd rest with
      | some r => rmTagsGo fuel r
      | none => c :: rmTagsGo fuel rest
    else c :: rmTagsGo fuel rest

/-- `rm_tags`: delete every `<([^>]+)>` match. -/
def rmTags (l : List Char) : List Char :=
  rmTagsGo l.length l

/-- `rm_numeric` worker: every maximal digit run becomes one space. -/
def rmNumericGo : Nat → List Char → List Char
  | 0, l => l
  | _ + 1, [] => []
  | fuel + 1, c :: rest =>
    if c.isDigit then ' ' :: rmNumericGo fuel (rest.dropWhile Char.isDigit)
    else c :: rmNumericGo fuel rest

/-- `rm_numeric`: `re.sub('[0-9]+', ' ', t)`. -/
def rmNumeric (l : List Char) : List Char :=
  rmNumericGo l.length l

/-- `string.punctuation`. -/
def punctuationChars : List Char :=
  ['!', Char.ofNat 34, '#', '$', '%', '&', Char.ofNat 39, '(', ')', '*', '+', ',', '-',
   '.', '/', ':', ';', '<', '=', '>', '?', '@', '[', Char.ofNat 92, ']', '^', '_',
   Char.ofNat 96, Char.ofNat 123, '|', Char.ofNat 125, '~']

/-- `rm_punctuation`: `str.translate` deletion of every punctuation char. -/
def rmPunctuation (l : List Char) : List Char :=
  l.filter (fun c => c ∉ punctuationChars)

/-- `rm_dup_spaces` worker: every maximal space run becomes one space
(`re.sub(' {2,}', ' ', t)` leaves single spaces alone, which coincides
with collapsing each run). -/
def rmDupSpacesGo : Nat → List Char → List Char
  | 0, l => l
  | _ + 1, [] => []
  | fuel + 1, c :: rest =>
    if c = ' ' then ' ' :: rmDupSpacesGo fuel (rest.dropWhile (fun d => d = ' '))
    else c :: rmDupSpacesGo fuel rest

/-- `rm_dup_spaces`. -/
def rmDupSpaces (l : List Char) : List Char :=
  rmDupSpacesGo l.length l

/-- Python `str.split(sep)` with an explicit one-char separator: splits at
every occurrence and keeps empty pieces. -/
def pySplitChar : List Char → List (List Char)
  | [] => [[]]
  | c :: rest =>
    if c = ' ' then [] :: pySplitChar rest
    else
      match pySplitChar rest with
      | [] => [[c]]
      | t :: ts => (c :: t) :: ts

/-- `BaseTokenizer.tokenize` with `DEFAULT_PRE_RULES`: lowercase, strip
tags, strip digits, strip punctuation, collapse duplicate spaces, then
split on a single space. -/
def baseTokenize (t : String) : List String :=
  let cs := rmDupSpaces (rmPunctuation (rmNumeric (rmTags (t.data.map Char.toLower))))
  (pySplitChar cs).map (fun l => String.mk l)

/-! ## CountVectorizer -/

/-- `max_doc_freq : Union[float, int]`. -/
inductive MaxDocFreq where
  | int (n : Int)
  | float (q : ℚ)
deriving DecidableEq

/-- `max_doc_count`: the raw count when an int, `max_doc_freq * n_docs`
when a float.  The product is written through `mkRat` so that it reduces
inside the kernel; `maxDocCount_float` below shows it is the product. -/
def maxDocCount (mdf : MaxDocFreq) (nDocs : Nat) : ℚ :=
  match mdf with
  | .int n => (n : ℚ)
  | .float q => mkRat (q.num * (nDocs : Int)) q.den

theorem maxDocCount_float (q : ℚ) (n : Nat) :
    maxDocCount (.float q) n = q * n := by
  show mkRat (q.num * (n : Int)) q.den = q * n
  have h : ((n : Int) : ℚ) = (n : ℚ) := by push_cast; ring
  rw [← h]
  conv_rhs => rw [← Rat.mkRat_self q, ← Rat.mkRat_one (n : Int)]
  rw [Rat.mkRat_mul_mkRat, Nat.mul_one]

/-- The `CountVectorizer` object state after construction. -/
structure CountVectorizer where
  tokenize : String → List String
  vocab : Option Vocabulary
  max_doc_freq : MaxDocFreq
  min_freq : Nat
  max_features : Option Nat
  binary : Bool

/-- One row of `CountVectorizer._count`: column `j` holds the number of
tokens whose vocabulary id is `j + len(SPECIAL_TOKENS)`; out-of-vocabulary
tokens are skipped by the `not in tok2idx` guard. -/
def countRow (v : Vocabulary) (nCols : Nat) (seq : List String) : List Nat :=
  (List.range nCols).map
    (fun j => (seq.filter (fun t => v.tok2idx t = some (j + SPECIAL_TOKENS.length))).length)

/-- `CountVectorizer._count`: the dense meaning of the CSR matrix of
shape `(len(sequences), vocab.size - len(SPECIAL_TOKENS))`. -/
def countMatrix (v : Vocabulary) (seqs : List (List String)) : List (List Nat) :=
  seqs.map (countRow v (v.size - SPECIAL_TOKENS.length))

/-- `X.data.fill(1)` when `binary` is set: stored (nonzero) counts become 1. -/
def binarize (b : Bool) (X : List (List Nat)) : List (List Nat) :=
  if b then X.map (List.map (fun c => if c = 0 then 0 else 1)) else X

/-- `CountVectorizer._doc_freq` for one column: `np.bincount(X.indices)`
counts the rows in which the column has a stored (nonzero) entry. -/
def docFreq (X : List (List Nat)) (j : Nat) : Nat :=
  (X.filter (fun row => row.getD j 0 ≠ 0)).length

/-- Columns surviving document-frequency pruning, in their original
(frequency-descending) order: the mask `doc_frequencies <= max_doc_count`. -/
def dfSurvivors (v : Vocabulary) (X : List (List Nat)) (mdc : ℚ) : List Nat :=
  (List.range (v.size - SPECIAL_TOKENS.length)).filter
    (fun j => (docFreq X j : ℚ) ≤ mdc)

/-- `X[:, kept_indices]`. -/
def selectCols (kept : List Nat) (X : List (List Nat)) : List (List Nat) :=
  X.map (fun row => kept.map (fun j => row.getD j 0))

/-- The message of the configuration-exhaustion `ValueError`. -/
def pruneErrorMsg : String :=
  "After pruning, no terms remain. Try a lower min_freq or a higher max_doc_freq."

/-- `CountVectorizer._limit_features`: early return when
`max_doc_count >= X.shape[0]`; otherwise mask by document frequency, cap
at `max_features` surviving columns, rebuild the vocabulary from the kept
columns (the descending `del` loop keeps exactly the masked entries, in
order, after the 4 reserved tokens) and raise when nothing is kept. -/
def limit_features (v : Vocabulary) (mf : Option Nat) (X : List (List Nat))
    (mdc : ℚ) : Except String (Vocabulary × List (List Nat)) :=
  if (X.length : ℚ) ≤ mdc then .ok (v, X)
  else
    let survivors := dfSurvivors v X mdc
    let kept := match mf with
      | some m => if m < survivors.length then survivors.take m else survivors
      | none => survivors
    let v2 : Vocabulary :=
      ⟨SPECIAL_TOKENS ++ kept.map (fun j => v.idx2tok.getD (j + SPECIAL_TOKENS.length) "")⟩
    if kept.isEmpty then .error pruneErrorMsg
    else .ok (v2, selectCols kept X)

/-- `CountVectorizer.fit_transform`: tokenize, build a fresh vocabulary
when none was supplied, count, binarize, and prune only in the
fresh-vocabulary case.  On success the returned state carries the final
vocabulary (the Python object mutates `self.vocab` in place). -/
def fit_transform (cv : CountVectorizer) (raw_documents : List String) :
    Except String (CountVectorizer × List (List String) × List (List Nat)) :=
  let sequences := raw_documents.map cv.tokenize
  match cv.vocab with
  | some v =>
    .ok (cv, sequences, binarize cv.binary (countMatrix v sequences))
  | none =>
    let v := Vocabulary.from_sequences sequences none cv.min_freq
    let X := binarize cv.binary (countMatrix v sequences)
    let mdc := maxDocCount cv.max_doc_freq sequences.length
    match limit_features v cv.max_features X mdc with
    | .error e => .error e
    | .ok (v2, X2) => .ok ({ cv with vocab := some v2 }, sequences, X2)

/-- `CountVectorizer.transform`: tokenize and count against the existing
vocabulary; the state is returned untouched (the method never writes any
field).  A missing vocabulary is the `AttributeError` Python would raise
on `self.vocab.tok2idx`. -/
def transform (cv : CountVectorizer) (raw_documents : List String) :
    Except String (CountVectorizer × List (List String) × List (List Nat)) :=
  match cv.vocab with
  | none => .error "AttributeError: vocab is None"
  | some v =>
    let sequences := raw_documents.map cv.tokenize
    .ok (cv, sequences, binarize cv.binary (countMatrix v sequences))

/-! ## TextModule -/

/-- The constant payload modelling a Python `KeyError`. -/
def keyErrorMsg : String := "KeyError"

/-- Python dict lookup on an association list with unique keys
(first match). -/
def lookupFirst : List (String × String) → String → Option String
  | [], _ => none
  | p :: rest, k => if p.1 = k then some p.2 else lookupFirst rest k

/-- `del d[k]` on the association list: removes the (unique) entry. -/
def removeKey (k : String) : List (String × String) → List (String × String)
  | [] => []
  | p :: rest => if p.1 = k then rest else p :: removeKey k rest

/-- Lookup in a dict built by a comprehension where later pairs override
earlier ones (`{mapped_id: raw_id for raw_id, mapped_id in ...}`). -/
def lookupLast : List (Nat × String) → Nat → Option String
  | [], _ => none
  | p :: rest, k =>
    match lookupLast rest k with
    | some v => some v
    | none => if p.1 = k then some p.2 else none

/-- The loop of `TextModule._build_text`: for each mapped id in order,
look the raw id up in the inverted map, fetch its raw text (a plain
`dict` access: `KeyError` when absent) and delete the consumed entry. -/
def buildTextGo (m2r : Nat → Option String) :
    List Nat → List (String × String) → Except String (List String)
  | [], _ => .ok []
  | i :: rest, texts =>
    match m2r i with
    | none => .error keyErrorMsg
    | some raw =>
      match lookupFirst texts raw with
      | none => .error keyErrorMsg
      | some t =>
        match buildTextGo m2r rest (removeKey raw texts) with
        | .error e => .error e
        | .ok ts => .ok (t :: ts)

/-- `TextModule._build_text`: returns the ordered raw texts (or `none`
when `id_text` was `None`, the early return). -/
def build_text (id_text : Option (List (String × String)))
    (global_id_map : List (String × Nat)) : Except String (Option (List String)) :=
  match id_text with
  | none => .ok none
  | some texts =>
    let mapped2raw := lookupLast (global_id_map.map (fun p => (p.2, p.1)))
    match buildTextGo mapped2raw (List.range global_id_map.length) texts with
    | .error e => .error e
    | .ok ts => .ok (some ts)

/-- `sequences[i]` for a nonnegative Python index. -/
def pyGetSeq (sequences : List (List Nat)) (i : Nat) : Except String (List Nat) :=
  if i < sequences.length then .ok (sequences.getD i []) else .error indexErrorMsg

/-- Python `max()` over a list, which raises on an empty argument. -/
def pyMax (l : List Nat) : Except String Nat :=
  match l with
  | [] => .error "ValueError: max() arg is an empty sequence"
  | x :: xs => .ok (xs.foldl max x)

/-- One row of `TextModule.batch_seq`: a `np.zeros` row of width
`maxLength` whose first entries are overwritten by `sequences[id][:max_length]`. -/
def fillRow (maxLength : Nat) (seq : List Nat) : List Nat :=
  (List.range maxLength).map (fun j => (seq.take maxLength).getD j 0)

/-- `TextModule.batch_seq`. -/
def batch_seq (sequences : Option (List (List Nat))) (batch_ids : List Nat)
    (max_length : Option Nat) : Except String (List (List Nat)) :=
  match sequences with
  | none => .error "self.sequences is required but None!"
  | some seqs => do
    let L ← match max_length with
      | some L => pure L
      | none => do
        let lens ← batch_ids.mapM (fun i => (pyGetSeq seqs i).map List.length)
        pyMax lens
    batch_ids.mapM (fun i => (pyGetSeq seqs i).map (fillRow L))

/-! ## A reference model of Python list objects, for the in-place
mutation performed by the `Vocabulary` constructor -/

/-- A heap of Python list objects. -/
abbrev Store := List (List String)

/-- A reference to a Python list object. -/
abbrev Ref := Nat

/-- Dereference. -/
def storeGet (σ : Store) (r : Ref) : List String :=
  σ.getD r []

/-- Overwrite the referenced object's contents. -/
def storeSet (σ : Store) (r : Ref) (l : List String) : Store :=
  σ.set r l

/-- `Vocabulary._add_special_tokens` as it acts on the heap: `remove` and
`insert` mutate the argument list object in place, and the method returns
that same object. -/
def addSpecialTokensStore (σ : Store) (r : Ref) : Store × Ref :=
  (storeSet σ r (addSpecialTokens (storeGet σ r)), r)

/-- The reference stored by a `Vocabulary` built on the heap model. -/
structure VocabularyRef where
  idx2tokRef : Ref
deriving DecidableEq

/-- `Vocabulary.__init__` on the heap model: `self.idx2tok` is whatever
object `_add_special_tokens` returns. -/
def vocabInitStore (σ : Store) (r : Ref) : Store × VocabularyRef :=
  let p := addSpecialTokensStore σ r
  (p.1, ⟨p.2⟩)

/-! ## Helper lemmas -/

theorem addSpecialTokens_eq (T : List String) :
    addSpecialTokens T =
      PAD :: UNK :: BOS :: EOS :: ((((T.erase EOS).erase BOS).erase UNK).erase PAD) := by
  simp only [addSpecialTokens, SPECIAL_TOKENS, List.reverse_cons, List.reverse_nil,
    List.nil_append, List.cons_append, List.foldl_cons, List.foldl_nil]
  rw [List.erase_cons_tail (by decide), List.erase_cons_tail (by decide),
    List.erase_cons_tail (by decide), List.erase_cons_tail (by decide),
    List.erase_cons_tail (by decide), List.erase_cons_tail (by decide)]

/-- Count of distinct non-reserved tokens appearing in a list. -/
def distinctNonReservedCount (T : List String) : Nat :=
  (T.filter (fun t => t ∉ SPECIAL_TOKENS)).dedup.length

/-- C1 counterexample: a duplicated non-reserved token is not collapsed
by the constructor, so the size is 6 and not 4 + 1. -/
theorem c1_counterexample :
    ¬ ((Vocabulary.init ["a", "a"]).size = 4 + distinctNonReservedCount ["a", "a"]) := by
  decide

/-- C1 (amended): `idx2tok` always begins with the four reserved tokens
in order, and the size is `4 + |T| - (number of distinct reserved tokens
occurring in T)`; only for duplicate-free `T` does this equal
`4 + |distinct non-reserved tokens of T|`. -/
theorem c1_amended (T : List String) :
    (Vocabulary.init T).idx2tok.take 4 = SPECIAL_TOKENS ∧
    (Vocabulary.init T).size + (SPECIAL_TOKENS.filter (fun s => s ∈ T)).length
      = 4 + T.length := by
  constructor
  · show (addSpecialTokens T).take 4 = SPECIAL_TOKENS
    rw [addSpecialTokens_eq]
    rfl
  · show (addSpecialTokens T).length + _ = _
    rw [addSpecialTokens_eq]
    have m2 : BOS ∈ T.erase EOS ↔ BOS ∈ T := List.mem_erase_of_ne (by decide)
    have m3 : UNK ∈ (T.erase EOS).erase BOS ↔ UNK ∈ T := by
      rw [List.mem_erase_of_ne (by decide), List.mem_erase_of_ne (by decide)]
    have m4 : PAD ∈ ((T.erase EOS).erase BOS).erase UNK ↔ PAD ∈ T := by
      rw [List.mem_erase_of_ne (by decide), List.mem_erase_of_ne (by decide),
        List.mem_erase_of_ne (by decide)]
    have A : (T.erase EOS).length + (if EOS ∈ T then 1 else 0) = T.length := by
      by_cases h : EOS ∈ T
      · have hp := List.length_pos_of_mem h
        rw [List.length_erase_of_mem h, if_pos h]
        omega
      · rw [List.erase_of_not_mem h, if_neg h]
        omega
    have B : ((T.erase EOS).erase BOS).length + (if BOS ∈ T then 1 else 0)
        = (T.erase EOS).length := by
      by_cases h : BOS ∈ T
      · have hm := m2.mpr h
        have hp := List.length_pos_of_mem hm
        rw [List.length_erase_of_mem hm, if_pos h]
        omega
      · rw [List.erase_of_not_mem (fun hc => h (m2.mp hc)), if_neg h]
        omega
    have C : (((T.erase EOS).erase BOS).erase UNK).length + (if UNK ∈ T then 1 else 0)
        = ((T.erase EOS).erase BOS).length := by
      by_cases h : UNK ∈ T
      · have hm := m3.mpr h
        have hp := List.length_pos_of_mem hm
        rw [List.length_erase_of_mem hm, if_pos h]
        omega
      · rw [List.erase_of_not_mem (fun hc => h (m3.mp hc)), if_neg h]
        omega
    have D : ((((T.erase EOS).erase BOS).erase UNK).erase PAD).length
        + (if PAD ∈ T then 1 else 0)
        = (((T.erase EOS).erase BOS).erase UNK).length := by
      by_cases h : PAD ∈ T
      · have hm := m4.mpr h
        have hp := List.length_pos_of_mem hm
        rw [List.length_erase_of_mem hm, if_pos h]
        omega
      · rw [List.erase_of_not_mem (fun hc => h (m4.mp hc)), if_neg h]
        omega
    simp only [List.length_cons]
    by_cases h1 : PAD ∈ T <;> by_cases h2 : UNK ∈ T <;>
      by_cases h3 : BOS ∈ T <;> by_cases h4 : EOS ∈ T <;>
      simp [h1, h2, h3, h4, SPECIAL_TOKENS] at A B C D ⊢ <;> omega

/-! ## C2: concrete CountVectorizer scenario from the spec and tests -/

/-- `CountVectorizer(max_doc_freq=2, min_freq=1, max_features=1)` with the
default `BaseTokenizer` and no supplied vocabulary. -/
def c2Vectorizer : CountVectorizer :=
  { tokenize := baseTokenize, vocab := none, max_doc_freq := .int 2, min_freq := 1,
    max_features := some 1, binary := false }

/-- The three-document corpus of the spec and of `TestCountVectorizer`. -/
def c2Corpus : List String := ["a b c", "b c d d", "c b e c f"]

/-- C2: fitting on the corpus excludes `c` and `b` (document frequency 3
over the `max_doc_count` of 2), keeps only the top surviving feature `d`,
and `transform` on the same corpus then yields `[[0], [2], [0]]`. -/
theorem c2_fit_then_transform :
    fit_transform c2Vectorizer c2Corpus =
      .ok ({ c2Vectorizer with vocab := some ⟨[PAD, UNK, BOS, EOS, "d"]⟩ },
        [["a", "b", "c"], ["b", "c", "d", "d"], ["c", "b", "e", "c", "f"]],
        [[0], [2], [0]]) ∧
    transform { c2Vectorizer with vocab := some ⟨[PAD, UNK, BOS, EOS, "d"]⟩ } c2Corpus =
      .ok ({ c2Vectorizer with vocab := some ⟨[PAD, UNK, BOS, EOS, "d"]⟩ },
        [["a", "b", "c"], ["b", "c", "d", "d"], ["c", "b", "e", "c", "f"]],
        [[0], [2], [0]]) :=
  ⟨rfl, rfl⟩

/-! ## C3: the `max_features` cap -/

/-- A fresh-vocabulary vectorizer with the default `max_doc_freq=1.0`
(float) and `max_features=1`. -/
def c3Vectorizer : CountVectorizer :=
  { tokenize := baseTokenize, vocab := none, max_doc_freq := .float 1, min_freq := 1,
    max_features := some 1, binary := false }

/-- C3 counterexample: on the one-document corpus `["a b"]` both terms
survive document-frequency pruning (each has document frequency 1 and
`max_doc_count = 1.0 * 1 = 1`), which exceeds `max_features = 1`, yet
`fit_transform` keeps both columns: `max_doc_count >= n_docs` makes
`_limit_features` return early and the cap is never applied. -/
theorem c3_counterexample :
    fit_transform c3Vectorizer ["a b"] =
      .ok ({ c3Vectorizer with vocab := some ⟨[PAD, UNK, BOS, EOS, "a", "b"]⟩ },
        [["a", "b"]], [[1, 1]]) ∧
    1 < (dfSurvivors ⟨[PAD, UNK, BOS, EOS, "a", "b"]⟩ [[1, 1]]
          (maxDocCount (.float 1) 1)).length :=
  ⟨rfl, by decide⟩

/-- The vocabulary `fit_transform` builds before pruning when none was
supplied. -/
def freshVocab (cv : CountVectorizer) (docs : List String) : Vocabulary :=
  Vocabulary.from_sequences (docs.map cv.tokenize) none cv.min_freq

/-- The count matrix `fit_transform` builds before pruning when no
vocabulary was supplied. -/
def freshX (cv : CountVectorizer) (docs : List String) : List (List Nat) :=
  binarize cv.binary (countMatrix (freshVocab cv docs) (docs.map cv.tokenize))

/-- The columns of a fresh fit that survive document-frequency pruning. -/
def freshSurvivors (cv : CountVectorizer) (docs : List String) : List Nat :=
  dfSurvivors (freshVocab cv docs) (freshX cv docs)
    (maxDocCount cv.max_doc_freq docs.length)

theorem freshX_length (cv : CountVectorizer) (docs : List String) :
    (freshX cv docs).length = docs.length := by
  unfold freshX binarize countMatrix
  by_cases h : cv.binary <;> simp [h]

/-- C3 (amended): the first `max_features` surviving terms are kept and
the rest dropped, provided additionally that `max_doc_count` is below the
number of documents, so that the pruning step of `_limit_features` is
reached at all; otherwise the early return skips the cap (see the
counterexample). -/
theorem c3_amended (cv : CountVectorizer) (docs : List String) (m : Nat)
    (hv : cv.vocab = none) (hmf : cv.max_features = some m) (hm : 0 < m)
    (hrun : maxDocCount cv.max_doc_freq docs.length < (docs.length : ℚ))
    (hsurv : m < (freshSurvivors cv docs).length) :
    fit_transform cv docs =
      .ok ({ cv with vocab := some ⟨SPECIAL_TOKENS ++
              ((freshSurvivors cv docs).take m).map
                (fun j => (freshVocab cv docs).idx2tok.getD (j + SPECIAL_TOKENS.length) "")⟩ },
        docs.map cv.tokenize,
        selectCols ((freshSurvivors cv docs).take m) (freshX cv docs)) := by
  have hne : ¬ ((freshX cv docs).length : ℚ) ≤ maxDocCount cv.max_doc_freq docs.length := by
    rw [freshX_length]
    exact not_le.mpr hrun
  have hlen : (docs.map cv.tokenize).length = docs.length := List.length_map _ _
  have hkept : ¬ ((freshSurvivors cv docs).take m).isEmpty = true := by
    rw [List.isEmpty_iff, ← List.length_eq_zero, List.length_take]
    omega
  simp only [freshSurvivors, freshX, freshVocab] at hne hsurv hkept ⊢
  unfold fit_transform
  rw [hv]
  simp only
  unfold limit_features
  rw [hlen]
  rw [if_neg hne]
  simp only [hmf, if_pos hsurv, if_neg hkept]

/-- Witness for `c3_amended`: the concrete corpus with `max_doc_freq=2`
(int), `max_features=1` satisfies every hypothesis, and only the first
surviving column is kept. -/
theorem c3_amended_witness :
    (c2Vectorizer.vocab = none ∧ c2Vectorizer.max_features = some 1 ∧ 0 < 1 ∧
      maxDocCount c2Vectorizer.max_doc_freq c2Corpus.length < (c2Corpus.length : ℚ) ∧
      1 < (freshSurvivors c2Vectorizer c2Corpus).length) ∧
    fit_transform c2Vectorizer c2Corpus =
      .ok ({ c2Vectorizer with vocab := some ⟨SPECIAL_TOKENS ++
              ((freshSurvivors c2Vectorizer c2Corpus).take 1).map
                (fun j => (freshVocab c2Vectorizer c2Corpus).idx2tok.getD
                  (j + SPECIAL_TOKENS.length) "")⟩ },
        c2Corpus.map c2Vectorizer.tokenize,
        selectCols ((freshSurvivors c2Vectorizer c2Corpus).take 1)
          (freshX c2Vectorizer c2Corpus)) :=
  ⟨⟨rfl, rfl, by decide, by decide, by decide⟩,
    c3_amended c2Vectorizer c2Corpus 1 rfl rfl (by decide) (by decide) (by decide)⟩

/-! ## C4: configuration exhaustion -/

/-- C4: in a fresh-vocabulary fit in which the pruning step is reached
(`max_doc_count < n_docs`, otherwise `_limit_features` returns before
pruning) and no column survives document-frequency pruning,
`fit_transform` raises the configuration-exhaustion `ValueError` — there
is no automatic threshold relaxation. -/
theorem c4_pruning_exhaustion_raises (cv : CountVectorizer) (docs : List String)
    (hv : cv.vocab = none)
    (hrun : maxDocCount cv.max_doc_freq docs.length < (docs.length : ℚ))
    (hempty : freshSurvivors cv docs = []) :
    fit_transform cv docs = .error pruneErrorMsg := by
  have hne : ¬ ((freshX cv docs).length : ℚ) ≤ maxDocCount cv.max_doc_freq docs.length := by
    rw [freshX_length]
    exact not_le.mpr hrun
  have hlen : (docs.map cv.tokenize).length = docs.length := List.length_map _ _
  simp only [freshSurvivors, freshX, freshVocab] at hne hempty ⊢
  unfold fit_transform
  rw [hv]
  simp only
  unfold limit_features
  rw [hlen]
  rw [if_neg hne]
  rw [hempty]
  rcases hmf : cv.max_features with _ | m
  · simp
  · simp

/-- Vectorizer of the `test_bad_freq_arguments` scenario:
`max_doc_freq=2, min_freq=3`. -/
def c4Vectorizer : CountVectorizer :=
  { tokenize := baseTokenize, vocab := none, max_doc_freq := .int 2, min_freq := 3,
    max_features := none, binary := false }

/-- Witness for `c4_pruning_exhaustion_raises`: with `min_freq=3` only
`c` and `b` enter the vocabulary, both have document frequency 3 > 2, so
nothing survives and the fit errors. -/
theorem c4_pruning_exhaustion_witness :
    (c4Vectorizer.vocab = none ∧
      maxDocCount c4Vectorizer.max_doc_freq c2Corpus.length < (c2Corpus.length : ℚ) ∧
      freshSurvivors c4Vectorizer c2Corpus = []) ∧
    fit_transform c4Vectorizer c2Corpus = .error pruneErrorMsg :=
  ⟨⟨rfl, by decide, by decide⟩,
    c4_pruning_exhaustion_raises c4Vectorizer c2Corpus rfl (by decide) (by decide)⟩

/-! ## C5: transform against a fixed vocabulary -/

theorem mem_of_lastIdxOf_eq_some {l : List String} {t : String} {k : Nat}
    (h : lastIdxOf l t = some k) : t ∈ l := by
  induction l generalizing k with
  | nil => simp [lastIdxOf] at h
  | cons x xs ih =>
    rw [lastIdxOf] at h
    cases hx : lastIdxOf xs t with
    | some k2 => exact List.mem_cons_of_mem _ (ih hx)
    | none =>
      rw [hx] at h
      by_cases hxt : x = t
      · subst hxt
        exact List.mem_cons_self _ _
      · simp [hxt] at h

theorem countRow_filter_inVocab (v : Vocabulary) (nCols : Nat) (seq : List String) :
    countRow v nCols (seq.filter (fun t => t ∈ v.idx2tok)) = countRow v nCols seq := by
  unfold countRow
  apply List.map_congr_left
  intro j _
  rw [List.filter_filter]
  congr 1
  apply List.filter_congr
  intro t _
  by_cases hp : v.tok2idx t = some (j + SPECIAL_TOKENS.length)
  · have ht : t ∈ v.idx2tok := mem_of_lastIdxOf_eq_some hp
    simp [hp, ht]
  · simp [hp]

theorem countMatrix_filter_inVocab (v : Vocabulary) (seqs : List (List String)) :
    countMatrix v (seqs.map (fun s => s.filter (fun t => t ∈ v.idx2tok))) =
      countMatrix v seqs := by
  unfold countMatrix
  rw [List.map_map]
  apply List.map_congr_left
  intro s _
  exact countRow_filter_inVocab v _ s

/-- C5: with an existing vocabulary, `transform` returns the vectorizer
state unchanged (so `idx2tok`/`tok2idx` are identical before and after
and nothing is pruned), and the counts are exactly the counts of the
in-vocabulary tokens: deleting every out-of-vocabulary token from the
tokenized documents leaves the matrix unchanged, i.e. such tokens are
silently dropped and in particular are not remapped to `UNK`. -/
theorem c5_transform_fixed_vocab (cv : CountVectorizer) (v : Vocabulary)
    (docs : List String) (hv : cv.vocab = some v) :
    transform cv docs =
      .ok (cv, docs.map cv.tokenize,
        binarize cv.binary (countMatrix v (docs.map cv.tokenize))) ∧
    countMatrix v ((docs.map cv.tokenize).map (fun s => s.filter (fun t => t ∈ v.idx2tok))) =
      countMatrix v (docs.map cv.tokenize) := by
  constructor
  · unfold transform
    rw [hv]
  · exact countMatrix_filter_inVocab v _

/-- A vectorizer carrying a supplied (fixed) vocabulary. -/
def c5Vectorizer : CountVectorizer :=
  { tokenize := baseTokenize, vocab := some (Vocabulary.init ["x"]),
    max_doc_freq := .float 1, min_freq := 1, max_features := none, binary := false }

/-- Witness for `c5_transform_fixed_vocab` on a document containing the
out-of-vocabulary token `y`. -/
theorem c5_transform_fixed_vocab_witness :
    c5Vectorizer.vocab = some (Vocabulary.init ["x"]) ∧
    (transform c5Vectorizer ["x y"] =
      .ok (c5Vectorizer, ["x y"].map c5Vectorizer.tokenize,
        binarize c5Vectorizer.binary
          (countMatrix (Vocabulary.init ["x"]) (["x y"].map c5Vectorizer.tokenize))) ∧
    countMatrix (Vocabulary.init ["x"])
        ((["x y"].map c5Vectorizer.tokenize).map
          (fun s => s.filter (fun t => t ∈ (Vocabulary.init ["x"]).idx2tok))) =
      countMatrix (Vocabulary.init ["x"]) (["x y"].map c5Vectorizer.tokenize)) :=
  ⟨rfl, c5_transform_fixed_vocab c5Vectorizer (Vocabulary.init ["x"]) ["x y"] rfl⟩

/-! ## C6: ids in the global map with no raw text -/

/-- C6 counterexample: a raw id (`u1`) present in the global id map but
absent from the raw-text dictionary is not silently skipped — the build
raises a `KeyError` on `self._id_text[raw_id]`. -/
theorem c6_counterexample :
    build_text (some []) [("u1", 0)] = .error keyErrorMsg := rfl

theorem lookupFirst_removeKey_none {texts : List (String × String)} {r k : String}
    (h : lookupFirst texts r = none) : lookupFirst (removeKey k texts) r = none := by
  induction texts with
  | nil => rfl
  | cons p rest ih =>
    rw [lookupFirst] at h
    by_cases hp : p.1 = r
    · simp [hp] at h
    · rw [if_neg hp] at h
      rw [removeKey]
      by_cases hk : p.1 = k
      · rw [if_pos hk]
        exact h
      · rw [if_neg hk, lookupFirst, if_neg hp]
        exact ih h

theorem buildTextGo_error (m2r : Nat → Option String) (is : List Nat) :
    ∀ texts : List (String × String),
      (∃ i ∈ is, ∃ r, m2r i = some r ∧ lookupFirst texts r = none) →
      buildTextGo m2r is texts = .error keyErrorMsg := by
  induction is with
  | nil => intro texts h; simp at h
  | cons j rest ih =>
    intro texts h
    obtain ⟨i, hi, r, hr, hnone⟩ := h
    rw [buildTextGo]
    cases hj : m2r j with
    | none => rfl
    | some raw =>
      cases hraw : lookupFirst texts raw with
      | none => simp only [hraw]
      | some t =>
        have hitail : i ∈ rest := by
          rcases List.mem_cons.mp hi with hij | htail
          · subst hij
            rw [hj] at hr
            cases hr
            rw [hraw] at hnone
            cases hnone
          · exact htail
        simp only [hraw]
        rw [ih (removeKey raw texts)
          ⟨i, hitail, r, hr, lookupFirst_removeKey_none hnone⟩]

/-- C6 (amended): a raw id reachable from the global id map (some mapped
position resolves to it) that has no entry in the raw-text dictionary
makes the build fail with a `KeyError`; it is not skipped. -/
theorem c6_amended (gmap : List (String × Nat)) (texts : List (String × String))
    (h : ∃ i < gmap.length, ∃ r,
      lookupLast (gmap.map (fun p => (p.2, p.1))) i = some r ∧
      lookupFirst texts r = none) :
    build_text (some texts) gmap = .error keyErrorMsg := by
  obtain ⟨i, hi, r, hr, hnone⟩ := h
  unfold build_text
  simp only
  rw [buildTextGo_error _ _ texts ⟨i, List.mem_range.mpr hi, r, hr, hnone⟩]

/-- Witness for `c6_amended`: the second mapped id resolves to raw id
`b`, which has no raw text, and the build errors. -/
theorem c6_amended_witness :
    (∃ i < ([("a", 0), ("b", 1)] : List (String × Nat)).length, ∃ r,
      lookupLast (([("a", 0), ("b", 1)] : List (String × Nat)).map (fun p => (p.2, p.1))) i
        = some r ∧
      lookupFirst [("a", "x")] r = none) ∧
    build_text (some [("a", "x")]) [("a", 0), ("b", 1)] = .error keyErrorMsg :=
  ⟨⟨1, by decide, "b", rfl, rfl⟩,
    c6_amended [("a", 0), ("b", 1)] [("a", "x")] ⟨1, by decide, "b", rfl, rfl⟩⟩

/-! ## C7: to_idx / to_text round-trip -/

/-- C7 counterexample: on the vocabulary built from `["b", "b"]` the
duplicate entry makes `tok2idx` point at the last occurrence, so decoding
id 4 and re-encoding yields 5, not 4. -/
theorem c7_counterexample :
    ∃ toks, (Vocabulary.init ["b", "b"]).to_text [(4 : Int)] none = .ok (.tokens toks) ∧
      (Vocabulary.init ["b", "b"]).to_idx toks ≠ [4] :=
  ⟨["b"], rfl, by decide⟩

theorem lastIdxOf_eq_none {l : List String} {t : String} (h : t ∉ l) :
    lastIdxOf l t = none := by
  induction l with
  | nil => rfl
  | cons x xs ih =>
    rw [lastIdxOf, ih (fun hm => h (List.mem_cons_of_mem _ hm))]
    rw [if_neg (fun he => h (by rw [← he]; exact List.mem_cons_self x xs))]

theorem lastIdxOf_getD {l : List String} (hnd : l.Nodup) :
    ∀ i, i < l.length → lastIdxOf l (l.getD i "") = some i := by
  induction l with
  | nil =>
    intro i hi
    simp at hi
  | cons x xs ih =>
    intro i hi
    cases i with
    | zero =>
      rw [List.getD_cons_zero, lastIdxOf, lastIdxOf_eq_none (List.nodup_cons.mp hnd).1]
      simp
    | succ j =>
      rw [List.getD_cons_succ, lastIdxOf,
        ih (List.nodup_cons.mp hnd).2 j (Nat.lt_of_succ_lt_succ hi)]

theorem pyGetStr_coe_nat {l : List String} {i : Nat} (h : i < l.length) :
    pyGetStr l (Int.ofNat i) = .ok (l.getD i "") := by
  unfold pyGetStr pyIndex
  rw [if_pos (show (0 : Int) ≤ Int.ofNat i from Int.natCast_nonneg i),
    if_pos (show Int.ofNat i < (l.length : Int) from Int.ofNat_lt.mpr h)]
  rfl

theorem mapM_pyGetStr_ok {l : List String} (ids : List Nat)
    (h : ∀ i ∈ ids, i < l.length) :
    (ids.map Int.ofNat).mapM (fun i => pyGetStr l i) =
      .ok (ids.map (fun i => l.getD i "")) := by
  induction ids with
  | nil => rfl
  | cons i rest ih =>
    rw [List.map_cons, List.map_cons, List.mapM_cons,
      pyGetStr_coe_nat (h i (List.mem_cons_self i rest)),
      ih (fun j hj => h j (List.mem_cons_of_mem i hj))]
    rfl

/-- C7 (amended): the round-trip `to_idx (to_text ids (sep = None)) = ids`
holds for every vocabulary whose `idx2tok` has no duplicate entries — in
particular every vocabulary built from a duplicate-free token list — and
every id list inside `[0, size)`; with duplicates it fails (see the
counterexample). -/
theorem c7_roundtrip (v : Vocabulary) (hnd : v.idx2tok.Nodup) (ids : List Nat)
    (hids : ∀ i ∈ ids, i < v.size) :
    ∃ toks, v.to_text (ids.map Int.ofNat) none = .ok (.tokens toks) ∧
      v.to_idx toks = ids := by
  refine ⟨ids.map (fun i => v.idx2tok.getD i ""), ?_, ?_⟩
  · unfold Vocabulary.to_text
    rw [mapM_pyGetStr_ok ids hids]
    rfl
  · unfold Vocabulary.to_idx
    rw [List.map_map]
    have hpt : ∀ i ∈ ids,
        ((v.tok2idx (v.idx2tok.getD i "")).getD 1) = i := by
      intro i hi
      rw [Vocabulary.tok2idx, lastIdxOf_getD hnd i (hids i hi)]
      rfl
    conv_rhs => rw [← List.map_id ids]
    exact List.map_congr_left hpt

/-- Witness for `c7_roundtrip` on the duplicate-free vocabulary from
`["a", "b"]` and ids `[0, 5, 4]`. -/
theorem c7_roundtrip_witness :
    ((Vocabulary.init ["a", "b"]).idx2tok.Nodup ∧
      (∀ i ∈ ([0, 5, 4] : List Nat), i < (Vocabulary.init ["a", "b"]).size)) ∧
    (∃ toks, (Vocabulary.init ["a", "b"]).to_text
        (([0, 5, 4] : List Nat).map Int.ofNat) none = .ok (.tokens toks) ∧
      (Vocabulary.init ["a", "b"]).to_idx toks = [0, 5, 4]) :=
  ⟨⟨by decide, by decide⟩,
    c7_roundtrip (Vocabulary.init ["a", "b"]) (by decide) [0, 5, 4] (by decide)⟩

/-! ## C8: range behavior of to_text -/

/-- C8 counterexample: `-1` lies outside `[0, size)` (here size is 7),
yet `to_text` succeeds, decoding it to the last token via Python's
negative-index wrap-around. -/
theorem c8_counterexample :
    (Vocabulary.init ["a", "b", "c"]).to_text [-1] none = .ok (.tokens ["c"]) := rfl

/-- Amended specification of `to_text`, written from the corrected claim:
decoding fails with the fatal range error exactly when some id falls
outside `[-size, size)`; ids in `[0, size)` decode to their tokens and
negative ids in `[-size, 0)` decode to the token at `size + id`. -/
def toTextAmendedSpec (v : Vocabulary) (indices : List Int) (sep : Option String) :
    Except String TextOut :=
  if ∃ i ∈ indices, i < -(v.size : Int) ∨ (v.size : Int) ≤ i then .error indexErrorMsg
  else
    let toks := indices.map (fun i =>
      if 0 ≤ i then v.idx2tok.getD i.toNat ""
      else v.idx2tok.getD ((v.size : Int) + i).toNat "")
    match sep with
    | some s => .ok (.joined (String.intercalate s toks))
    | none => .ok (.tokens toks)

theorem mapM_pyGetStr_spec (l : List String) (indices : List Int) :
    indices.mapM (fun i => pyGetStr l i) =
      if ∃ i ∈ indices, i < -(l.length : Int) ∨ (l.length : Int) ≤ i then
        .error indexErrorMsg
      else
        .ok (indices.map (fun i =>
          if 0 ≤ i then l.getD i.toNat ""
          else l.getD ((l.length : Int) + i).toNat "")) := by
  induction indices with
  | nil =>
    rw [List.mapM_nil]
    simp
    rfl
  | cons i rest ih =>
    rw [List.mapM_cons]
    by_cases hbad : i < -(l.length : Int) ∨ (l.length : Int) ≤ i
    · have herr : pyGetStr l i = .error indexErrorMsg := by
        unfold pyGetStr pyIndex
        rcases hbad with hlt | hge
        · rw [if_neg (show ¬ (0 : Int) ≤ i by omega),
            if_neg (show ¬ (0 : Int) ≤ (l.length : Int) + i by omega)]
        · by_cases h0 : (0 : Int) ≤ i
          · rw [if_pos h0, if_neg (show ¬ i < (l.length : Int) by omega)]
          · exact absurd hge (by omega)
      have hcons : ∃ j ∈ i :: rest, j < -(l.length : Int) ∨ (l.length : Int) ≤ j :=
        ⟨i, List.mem_cons_self i rest, hbad⟩
      rw [herr, if_pos hcons]
      rfl
    · have hok : pyGetStr l i =
          .ok (if 0 ≤ i then l.getD i.toNat ""
            else l.getD ((l.length : Int) + i).toNat "") := by
        unfold pyGetStr pyIndex
        push_neg at hbad
        obtain ⟨hlo, hhi⟩ := hbad
        by_cases h0 : (0 : Int) ≤ i
        · rw [if_pos h0, if_pos (show i < (l.length : Int) by omega), if_pos h0]
        · rw [if_neg h0, if_pos (show (0 : Int) ≤ (l.length : Int) + i by omega),
            if_neg h0]
      rw [hok, ih]
      by_cases hrest : ∃ j ∈ rest, j < -(l.length : Int) ∨ (l.length : Int) ≤ j
      · have hcons : ∃ j ∈ i :: rest, j < -(l.length : Int) ∨ (l.length : Int) ≤ j := by
          obtain ⟨j, hj, hbj⟩ := hrest
          exact ⟨j, List.mem_cons_of_mem i hj, hbj⟩
        rw [if_pos hrest, if_pos hcons]
        rfl
      · have hcons : ¬ ∃ j ∈ i :: rest, j < -(l.length : Int) ∨ (l.length : Int) ≤ j := by
          intro hc
          obtain ⟨j, hj, hbj⟩ := hc
          rcases List.mem_cons.mp hj with hji | hjr
          · exact hbad (hji ▸ hbj)
          · exact hrest ⟨j, hjr, hbj⟩
        rw [if_neg hrest, if_neg hcons]
        rfl

/-- C8 (amended): `to_text` equals the amended specification — it fails
with the fatal range error exactly when some id lies outside
`[-size, size)`; ids in `[0, size)` decode to their corresponding tokens,
and negative ids down to `-size` wrap around instead of failing. -/
theorem c8_to_text_spec (v : Vocabulary) (indices : List Int) (sep : Option String) :
    v.to_text indices sep = toTextAmendedSpec v indices sep := by
  unfold Vocabulary.to_text toTextAmendedSpec
  simp only [Vocabulary.size]
  rw [mapM_pyGetStr_spec]
  by_cases hbad : ∃ i ∈ indices, i < -(v.idx2tok.length : Int) ∨ (v.idx2tok.length : Int) ≤ i
  · rw [if_pos hbad, if_pos hbad]
    rfl
  · rw [if_neg hbad, if_neg hbad]
    cases sep <;> rfl

/-! ## C9: batch_seq -/

theorem pyGetSeq_ok {seqs : List (List Nat)} {i : Nat} (h : i < seqs.length) :
    pyGetSeq seqs i = .ok (seqs.getD i []) := by
  unfold pyGetSeq
  rw [if_pos h]

theorem mapM_pyGetSeq_ok {β : Type} (seqs : List (List Nat)) (f : List Nat → β)
    (ids : List Nat) (h : ∀ i ∈ ids, i < seqs.length) :
    ids.mapM (fun i => (pyGetSeq seqs i).map f) =
      .ok (ids.map (fun i => f (seqs.getD i []))) := by
  induction ids with
  | nil => rfl
  | cons i rest ih =>
    rw [List.mapM_cons, pyGetSeq_ok (h i (List.mem_cons_self i rest)),
      ih (fun j hj => h j (List.mem_cons_of_mem i hj))]
    rfl

theorem range_map_getD (t : List Nat) (L : Nat) (hL : t.length ≤ L) :
    (List.range L).map (fun j => t.getD j 0) = t ++ List.replicate (L - t.length) 0 := by
  apply List.ext_getElem
  · simp only [List.length_map, List.length_range, List.length_append,
      List.length_replicate]
    omega
  · intro j h1 h2
    rw [List.getElem_map, List.getElem_range]
    by_cases hj : j < t.length
    · rw [List.getElem_append_left hj, List.getD_eq_getElem t 0 hj]
    · rw [List.getElem_append_right (Nat.le_of_not_lt hj), List.getElem_replicate,
        List.getD_eq_default t 0 (Nat.le_of_not_lt hj)]

theorem fillRow_eq_take_append (L : Nat) (s : List Nat) :
    fillRow L s = s.take L ++ List.replicate (L - (s.take L).length) 0 := by
  unfold fillRow
  apply range_map_getD
  rw [List.length_take]
  omega

/-- The width `batch_seq` uses: `max_length` when given, else the length
of the longest requested sequence. -/
def batchSeqWidth (seqs : List (List Nat)) (batch_ids : List Nat)
    (max_length : Option Nat) : Nat :=
  match max_length with
  | some L => L
  | none => (batch_ids.map (fun i => (seqs.getD i []).length)).foldl max 0

theorem foldl_max_cons (x : Nat) (xs : List Nat) :
    xs.foldl max x = (x :: xs).foldl max 0 := by
  rw [List.foldl_cons, Nat.max_comm, Nat.max_zero]

/-- C9: with sequences set, a non-empty id list all of whose ids are in
range, `batch_seq` returns the matrix whose rows are the requested
sequences truncated to the width and right-padded with the `PAD` id 0;
the width is `max_length` when given and the longest requested sequence
otherwise, and the shape is `(len(batch_ids), width)`. -/
theorem c9_batch_seq (seqs : List (List Nat)) (batch_ids : List Nat)
    (max_length : Option Nat) (hne : batch_ids ≠ [])
    (hid : ∀ i ∈ batch_ids, i < seqs.length) :
    ∃ M, batch_seq (some seqs) batch_ids max_length = .ok M ∧
      M = batch_ids.map (fun i =>
        let s := seqs.getD i []
        s.take (batchSeqWidth seqs batch_ids max_length) ++
          List.replicate (batchSeqWidth seqs batch_ids max_length -
            (s.take (batchSeqWidth seqs batch_ids max_length)).length) 0) ∧
      M.length = batch_ids.length ∧
      ∀ row ∈ M, row.length = batchSeqWidth seqs batch_ids max_length := by
  have hrows : batch_ids.mapM
        (fun i => (pyGetSeq seqs i).map
          (fillRow (batchSeqWidth seqs batch_ids max_length))) =
      .ok (batch_ids.map (fun i =>
        fillRow (batchSeqWidth seqs batch_ids max_length) (seqs.getD i []))) :=
    mapM_pyGetSeq_ok seqs _ batch_ids hid
  refine ⟨batch_ids.map (fun i =>
      fillRow (batchSeqWidth seqs batch_ids max_length) (seqs.getD i [])), ?_, ?_, ?_, ?_⟩
  · unfold batch_seq
    cases hml : max_length with
    | some L =>
      simp only
      rw [show (do
          let L2 ← pure L
          batch_ids.mapM (fun i => (pyGetSeq seqs i).map (fillRow L2)) :
            Except String (List (List Nat))) =
          batch_ids.mapM (fun i => (pyGetSeq seqs i).map (fillRow L)) from rfl]
      rw [hml] at hrows
      exact hrows
    | none =>
      simp only
      obtain ⟨i0, rest0, hb⟩ : ∃ i0 rest0, batch_ids = i0 :: rest0 := by
        cases batch_ids with
        | nil => exact absurd rfl hne
        | cons a b => exact ⟨a, b, rfl⟩
      have hlens : batch_ids.mapM (fun i => (pyGetSeq seqs i).map List.length) =
          .ok (batch_ids.map (fun i => (seqs.getD i []).length)) :=
        mapM_pyGetSeq_ok seqs _ batch_ids hid
      rw [hlens]
      have hmax : pyMax (batch_ids.map (fun i => (seqs.getD i []).length)) =
          .ok (batchSeqWidth seqs batch_ids none) := by
        rw [hb]
        unfold pyMax batchSeqWidth
        simp only [List.map_cons]
        rw [foldl_max_cons]
      rw [show (do
          let lens ← Except.ok (batch_ids.map (fun i => (seqs.getD i []).length))
          let L2 ← pyMax lens
          batch_ids.mapM (fun i => (pyGetSeq seqs i).map (fillRow L2)) :
            Except String (List (List Nat))) =
          (do
          let L2 ← pyMax (batch_ids.map (fun i => (seqs.getD i []).length))
          batch_ids.mapM (fun i => (pyGetSeq seqs i).map (fillRow L2))) from rfl]
      rw [hmax]
      rw [hml] at hrows
      exact hrows
  · apply List.map_congr_left
    intro i _
    exact fillRow_eq_take_append _ _
  · rw [List.length_map]
  · intro row hrow
    obtain ⟨i, _, hfe⟩ := List.mem_map.mp hrow
    rw [← hfe]
    unfold fillRow
    rw [List.length_map, List.length_range]

/-- Witness for `c9_batch_seq`: ids `[1, 0]` over two stored sequences,
with the width inferred from the longest requested sequence (3). -/
theorem c9_batch_seq_witness :
    (([1, 0] : List Nat) ≠ [] ∧
      (∀ i ∈ ([1, 0] : List Nat), i < ([[5, 6, 7], [8]] : List (List Nat)).length)) ∧
    (∃ M, batch_seq (some [[5, 6, 7], [8]]) [1, 0] none = .ok M ∧
      M = ([1, 0] : List Nat).map (fun i =>
        let s := ([[5, 6, 7], [8]] : List (List Nat)).getD i []
        s.take (batchSeqWidth [[5, 6, 7], [8]] [1, 0] none) ++
          List.replicate (batchSeqWidth [[5, 6, 7], [8]] [1, 0] none -
            (s.take (batchSeqWidth [[5, 6, 7], [8]] [1, 0] none)).length) 0) ∧
      M.length = ([1, 0] : List Nat).length ∧
      ∀ row ∈ M, row.length = batchSeqWidth [[5, 6, 7], [8]] [1, 0] none) :=
  ⟨⟨by decide, by decide⟩,
    c9_batch_seq [[5, 6, 7], [8]] [1, 0] none (by decide) (by decide)⟩

/-! ## C10: in-place mutation by the Vocabulary constructor -/

/-- C10 counterexample: when the caller's list already holds exactly
`[PAD, UNK, BOS, EOS]`, the normalization is a fixpoint, so after
`Vocabulary(T)` the caller's list retains its original contents — against
the claim that the input list never does. -/
theorem c10_counterexample :
    storeGet (vocabInitStore [[PAD, UNK, BOS, EOS]] 0).1 0 = [PAD, UNK, BOS, EOS] ∧
    storeGet ([[PAD, UNK, BOS, EOS]] : Store) 0 = [PAD, UNK, BOS, EOS] := ⟨rfl, rfl⟩

/-- C10 (amended): the constructor aliases the caller's list — the stored
`idx2tok` is the very same reference — and mutates it in place to the
normalized form (one occurrence of each reserved token removed from its
original position, the four reserved tokens prepended in order).  The new
contents generally differ from the original ones, but not always: the
counterexample input is a fixpoint. -/
theorem c10_aliasing_mutation (σ : Store) (r : Ref) (hr : r < σ.length) :
    ((vocabInitStore σ r).2).idx2tokRef = r ∧
    storeGet (vocabInitStore σ r).1 r =
      PAD :: UNK :: BOS :: EOS ::
        (((((storeGet σ r).erase EOS).erase BOS).erase UNK).erase PAD) := by
  constructor
  · rfl
  · show storeGet (storeSet σ r (addSpecialTokens (storeGet σ r))) r = _
    unfold storeGet storeSet
    rw [List.getD_eq_getElem _ _ (by rw [List.length_set]; exact hr),
      List.getElem_set_self]
    exact addSpecialTokens_eq _

/-- Witness for `c10_aliasing_mutation` on a one-object heap. -/
theorem c10_aliasing_mutation_witness :
    (0 : Ref) < ([[EOS, "a"]] : Store).length ∧
    (((vocabInitStore [[EOS, "a"]] 0).2).idx2tokRef = 0 ∧
      storeGet (vocabInitStore [[EOS, "a"]] 0).1 0 =
        PAD :: UNK :: BOS :: EOS ::
          (((((storeGet ([[EOS, "a"]] : Store) 0).erase EOS).erase BOS).erase
            UNK).erase PAD)) :=
  ⟨by decide, c10_aliasing_mutation [[EOS, "a"]] 0 (by decide)⟩

end Cornac
